import Mathlib

/-!
# Verification of the xbrother GPIO sysfs exporter

Shallow embedding of `src/drivers/gpio/gpio-xbrother.c` (driver
`xbrother_gpios`): the probe routine that walks the device-tree child nodes,
acquires each GPIO, exports it to sysfs and links it under a class device,
and the remove routine that tears everything down.

The external collaborators (gpiolib and the sysfs/device core) are modelled
as oracles (`Env`): each call the driver makes is recorded in an event
trace, and the oracle decides its outcome from the arguments the driver
passes.  A GPIO handle is identified by the index the driver passes to
`devm_gpiod_get_index` (the driver itself only ever distinguishes handles
that way).  Memory allocation (`devm_kzalloc`) and the `!np` check are not
modelled: both are outside every claim and always succeed here.
-/

set_option linter.unusedVariables false

/-! ## Data model and the embedded driver code -/

/-- The `enum gpiod_flags` values the driver uses:
`GPIOD_IN`, `GPIOD_OUT_LOW`, `GPIOD_OUT_HIGH` (lines 146-155). -/
inductive Dir where
  | input
  | outLow
  | outHigh
deriving DecidableEq, Repr

/-- One device-tree child node, as the probe reads it: `status` availability
(`of_device_is_available`), the optional `"name"` and `"direction"` string
properties, and the `"direction-may-change"` boolean. -/
structure ChildNode where
  available : Bool
  name : Option String
  direction : Option String
  dmc : Bool
deriving DecidableEq, Repr

/-- The device-tree node of the driver itself: string properties and child nodes. -/
structure GroupNode where
  props : String → Option String
  children : List ChildNode

/-- Outcome of `devm_gpiod_get_index` as the driver distinguishes it
(lines 157-166): success, `-EPROBE_DEFER`, or any other error. -/
inductive AcqRes where
  | ok
  | deferred
  | failed
deriving DecidableEq, Repr

/-- The responses of the collaborators, keyed by the arguments the driver passes.
`acquire i d` is `devm_gpiod_get_index(dev, NULL, i, d)`; `exportOk i dmc`
is whether `gpiod_export(handle_i, dmc)` succeeds; `linkOk nm i` is whether
`gpiod_export_link(sysfs_dev, nm, handle_i)` succeeds. -/
structure Env where
  classOk : Bool
  deviceOk : Bool
  rootLinkOk : Bool
  acquire : Nat → Dir → AcqRes
  exportOk : Nat → Bool → Bool
  linkOk : String → Nat → Bool

/-- One collaborator call made by the driver, in the order the code makes
them (the "mock recording call order" of the testable properties of the spec). -/
inductive Event where
  | classCreate
  | deviceCreate
  | linkCreate (name : String)
  | acquire (idx : Nat) (d : Dir)
  | exportGpio (idx : Nat) (dmc : Bool)
  | exportLink (name : String) (idx : Nat)
  | unexport (idx : Nat)
  | linkRemove (name : String)
  | deviceDestroy
  | classDestroy
deriving DecidableEq, Repr

/-- The error returns of `xbrother_probe`, by the code path that takes them.
`noChildren`, `unexpectedCount` and `noneExported` are `-EINVAL`,
`deferred` is `-EPROBE_DEFER`, the remaining three propagate the
error code of the collaborator. -/
inductive ProbeErr where
  | noChildren
  | classFailed
  | deviceFailed
  | rootLinkFailed
  | unexpectedCount
  | deferred
  | noneExported
deriving DecidableEq, Repr

/-- Only `-EPROBE_DEFER` is a retryable probe error; every other error
return of the probe is terminal for this probe call. -/
def retryable : ProbeErr → Bool
  | .deferred => true
  | _ => false

/-- The C macro CLASS_NAME, `"xbrother"` (line 36). -/
def CLASS_NAME : String := "xbrother"

/-- The sysfs link name the probe creates: the `"sysfs-link"` property of
the driver node, or `CLASS_NAME` when the property is absent
(lines 102-104). -/
def xbrother_probe_link (np : GroupNode) : String :=
  match np.props "sysfs-link" with
  | some s => s
  | none => CLASS_NAME

/-- The sysfs link name the remove path removes: the `"xbrother,sysfs-link"`
property of the driver node, or `CLASS_NAME` when absent (lines 223-225).
Note the property name differs from the one the probe reads. -/
def xbrother_remove_link (np : GroupNode) : String :=
  match np.props "xbrother,sysfs-link" with
  | some s => s
  | none => CLASS_NAME

/-- The direction-string parse, the `strcmp` chain at lines 146-155 (the
`"output" || "low"` disjunction is split into two arms with equal result). -/
def dirFlags (s : String) : Option Dir :=
  if s = "input" then some .input
  else if s = "output" then some .outLow
  else if s = "low" then some .outLow
  else if s = "high" then some .outHigh
  else none

/-- The number of available child nodes, `gpio_count` as pre-counted at
lines 72-75. -/
def countAvail (cs : List ChildNode) : Nat :=
  (cs.filter (·.available)).length

/-- The state of the per-child loop of the probe: `i` (the success counter,
which is also the next acquisition index, line 58/186), the filled slots of
`priv->gpios` (acquisition index = handle and name of each successful
entry, in acquisition order), and the trace of collaborator calls so far. -/
structure LoopState where
  i : Nat
  slots : List (Nat × String)
  trace : List Event
deriving Repr

/-- One iteration of the per-child loop of the probe (lines 113-187): skip
disabled nodes, defensive count check, read `"name"` and `"direction"`,
parse the direction, acquire the GPIO at index `i`, export it, link it,
and on full success record the slot and increment `i`.  Every `continue`
of the C code is an `Except.ok` that leaves `i` and the slots unchanged;
the two `goto err_sysfs` are `Except.error`. -/
def processChild (env : Env) (gpio_count : Nat) (st : LoopState) (c : ChildNode) :
    Except (List Event × ProbeErr) LoopState :=
  if !c.available then .ok st
  else if st.i ≥ gpio_count then .error (st.trace, .unexpectedCount)
  else
    match c.name with
    | none => .ok st
    | some nm =>
      match c.direction with
      | none => .ok st
      | some ds =>
        match dirFlags ds with
        | none => .ok st
        | some d =>
          let tr := st.trace ++ [.acquire st.i d]
          match env.acquire st.i d with
          | .deferred => .error (tr, .deferred)
          | .failed => .ok { st with trace := tr }
          | .ok =>
            let tr := tr ++ [.exportGpio st.i c.dmc]
            if env.exportOk st.i c.dmc then
              let tr := tr ++ [.exportLink nm st.i]
              if env.linkOk nm st.i then
                .ok { i := st.i + 1, slots := st.slots ++ [(st.i, nm)], trace := tr }
              else
                .ok { st with trace := tr ++ [.unexport st.i] }
            else .ok { st with trace := tr }

/-- The per-child loop of the probe over the whole child list. -/
def processChildren (env : Env) (gpio_count : Nat) (st : LoopState) :
    List ChildNode → Except (List Event × ProbeErr) LoopState
  | [] => .ok st
  | c :: cs =>
    match processChild env gpio_count st c with
    | .error e => .error e
    | .ok st' => processChildren env gpio_count st' cs

/-- What a successful probe leaves in drvdata: the filled gpio slots and
`gpio_count` (the final value of `i`, line 195). -/
structure Priv where
  gpios : List (Nat × String)
  gpio_count : Nat
deriving DecidableEq, Repr

/-- Embedding of `xbrother_probe` (lines 51-207).  Returns the populated `Priv` and the
call trace on success, or the call trace (cleanup included) and the error
on failure.  The error paths mirror the `goto err_sysfs` / `err_device` /
`err_class` labels (lines 200-206). -/
def xbrother_probe (env : Env) (np : GroupNode) :
    Except (List Event × ProbeErr) (Priv × List Event) :=
  let gpio_count := countAvail np.children
  if gpio_count = 0 then .error ([], .noChildren)
  else
    let tr := [Event.classCreate]
    if !env.classOk then .error (tr, .classFailed)
    else
      let tr := tr ++ [Event.deviceCreate]
      if !env.deviceOk then .error (tr ++ [Event.classDestroy], .deviceFailed)
      else
        let link := xbrother_probe_link np
        let tr := tr ++ [Event.linkCreate link]
        if !env.rootLinkOk then
          .error (tr ++ [Event.deviceDestroy, Event.classDestroy], .rootLinkFailed)
        else
          match processChildren env gpio_count ⟨0, [], tr⟩ np.children with
          | .error (tr', e) =>
            .error (tr' ++ [Event.linkRemove link, Event.deviceDestroy, Event.classDestroy], e)
          | .ok st =>
            if st.i = 0 then
              .error (st.trace ++
                  [Event.linkRemove link, Event.deviceDestroy, Event.classDestroy],
                .noneExported)
            else .ok ({ gpios := st.slots, gpio_count := st.i }, st.trace)

/-- Embedding of `xbrother_remove` (lines 209-233): unexport `priv->gpios[0 .. gpio_count-1]`
in that (forward) loop order, each slot only when its descriptor is set
(`if (priv->gpios[i].gpiod)`, modelled by the slot being present), then
remove the sysfs link, destroy the device, destroy the class. -/
def xbrother_remove (np : GroupNode) (priv : Priv) : List Event :=
  ((List.range priv.gpio_count).filterMap fun j =>
      (priv.gpios[j]?).map fun g => Event.unexport g.1)
    ++ [Event.linkRemove (xbrother_remove_link np), Event.deviceDestroy, Event.classDestroy]

/-! ## Reference functions over the same data

Per-entry outcome classification and the outcome sequence of a run; these
mirror the per-entry control flow of `processChild` and are related to it
by the characterization lemmas below. -/

/-- How the probe loop disposes of one child entry. -/
inductive EntryOutcome where
  | disabled
  | softSkip
  | success
  | deferredAbort
deriving DecidableEq, Repr

/-- The outcome of one child processed while the success counter is `i`:
disabled nodes are skipped outright; a missing name, missing direction,
unparsable direction token, non-deferred acquisition failure, export
failure or link failure is a soft skip; a deferred acquisition aborts;
otherwise the entry succeeds. -/
def entryOutcome (env : Env) (i : Nat) (c : ChildNode) : EntryOutcome :=
  if !c.available then .disabled
  else
    match c.name with
    | none => .softSkip
    | some nm =>
      match c.direction with
      | none => .softSkip
      | some ds =>
        match dirFlags ds with
        | none => .softSkip
        | some d =>
          match env.acquire i d with
          | .deferred => .deferredAbort
          | .failed => .softSkip
          | .ok =>
            if env.exportOk i c.dmc then
              if env.linkOk nm i then .success else .softSkip
            else .softSkip

/-- The outcome sequence of a child list, threading the success counter the
way the loop does (it only advances on success). -/
def runOutcomes (env : Env) : Nat → List ChildNode → List EntryOutcome
  | _, [] => []
  | i, c :: cs =>
    let o := entryOutcome env i c
    o :: runOutcomes env (if o = .success then i + 1 else i) cs

/-- The number of successful entries in an outcome sequence. -/
def countSuccesses : List EntryOutcome → Nat
  | [] => 0
  | o :: rest => (if o = EntryOutcome.success then 1 else 0) + countSuccesses rest

/-- The trace of either result of one loop iteration. -/
def stepTrace : Except (List Event × ProbeErr) LoopState → List Event
  | .ok st => st.trace
  | .error (tr, _) => tr

/-- Whether an optional event is an acquisition call. -/
def isAcquire : Option Event → Bool
  | some (.acquire _ _) => true
  | _ => false

/-- Whether a probe result is the defensive `Unexpected child node count`
error (lines 124-128). -/
def hitUnexpected : Except (List Event × ProbeErr) (Priv × List Event) → Bool
  | .error (_, .unexpectedCount) => true
  | _ => false

/-- Whether the probe succeeded. -/
def probeOk : Except (List Event × ProbeErr) (Priv × List Event) → Bool
  | .ok _ => true
  | .error _ => false

/-- The `gpio_count` a probe result records (0 on error). -/
def probeCount : Except (List Event × ProbeErr) (Priv × List Event) → Nat
  | .ok (p, _) => p.gpio_count
  | .error _ => 0

/-! ## Concrete fixtures -/

/-- An environment in which every collaborator call succeeds. -/
def envAllOk : Env :=
  { classOk := true, deviceOk := true, rootLinkOk := true,
    acquire := fun _ _ => .ok, exportOk := fun _ _ => true, linkOk := fun _ _ => true }

/-- One available child named "a", direction "input", no properties on the
driver node. -/
def npGood : GroupNode :=
  ⟨fun _ => none, [⟨true, some "a", some "input", false⟩]⟩

/-- Two good children "a" and "b". -/
def npTwo : GroupNode :=
  ⟨fun _ => none, [⟨true, some "a", some "input", false⟩, ⟨true, some "b", some "low", false⟩]⟩

/-- One available child with no "name" property. -/
def npNoName : GroupNode :=
  ⟨fun _ => none, [⟨true, none, none, false⟩]⟩

/-- The trace of the three root-setup calls the probe makes before the loop. -/
def initTrace (np : GroupNode) : List Event :=
  [Event.classCreate, Event.deviceCreate, Event.linkCreate (xbrother_probe_link np)]

/-- The `err_sysfs` cleanup tail (lines 200-205): remove the sysfs link,
destroy the device, destroy the class, in that order. -/
def cleanupEvents (np : GroupNode) : List Event :=
  [Event.linkRemove (xbrother_probe_link np), Event.deviceDestroy, Event.classDestroy]

/-- Two good children, the second of which defers. -/
def npC1 : GroupNode :=
  ⟨fun _ => none,
   [⟨true, some "a", some "input", false⟩, ⟨true, some "b", some "input", false⟩]⟩

/-- Provider that grants index 0 and defers every later index. -/
def envC1 : Env :=
  { envAllOk with acquire := fun i _ => if i = 0 then .ok else .deferred }

/-- The probe trace of `envC1`/`npC1`: entry 0 acquired, exported and
linked, entry 1 deferred, then only the root cleanup calls. -/
def c1trace : List Event :=
  [.classCreate, .deviceCreate, .linkCreate "xbrother",
   .acquire 0 .input, .exportGpio 0 false, .exportLink "a" 0,
   .acquire 1 .input, .linkRemove "xbrother", .deviceDestroy, .classDestroy]

/-- Two children: "a" (direction "high", direction-may-change set) whose
export fails, and "b" which fully succeeds. -/
def npC3 : GroupNode :=
  ⟨fun _ => none,
   [⟨true, some "a", some "high", true⟩, ⟨true, some "b", some "input", false⟩]⟩

/-- Environment in which `gpiod_export` fails exactly for the calls with
the direction-may-change flag set (entry "a"), succeeds otherwise. -/
def envC3 : Env := { envAllOk with exportOk := fun _ dmc => !dmc }

/-- The probe trace of `envC3`/`npC3`: "a" acquired, its export fails, the
entry is skipped with no release call; "b" then reuses index 0 and
succeeds. -/
def c3trace : List Event :=
  [.classCreate, .deviceCreate, .linkCreate "xbrother",
   .acquire 0 .outHigh, .exportGpio 0 true,
   .acquire 0 .input, .exportGpio 0 false, .exportLink "b" 0]

/-- Two children: the first has no "name" property (soft-skipped before
acquisition), the second is fully valid. -/
def npC2 : GroupNode :=
  ⟨fun _ => none, [⟨true, none, none, false⟩, ⟨true, some "b", some "input", false⟩]⟩

/-- The probe trace of `envAllOk`/`npC2`. -/
def c2trace : List Event :=
  [.classCreate, .deviceCreate, .linkCreate "xbrother",
   .acquire 0 .input, .exportGpio 0 false, .exportLink "b" 0]

/-- A driver node whose "sysfs-link" property names the alias "foo". -/
def npC8 : GroupNode :=
  ⟨fun s => if s = "sysfs-link" then some "foo" else none,
   [⟨true, some "a", some "input", false⟩]⟩

/-! ## General list lemmas -/

theorem take_append_cons {α : Type _} (l rest : List α) (a : α) :
    (l ++ a :: rest).take (l.length + 1) = l ++ [a] := by
  induction l with
  | nil => simp
  | cons x xs ih => simp [List.take_succ_cons, ih]

/-! ## Branch characterization of one loop iteration -/

theorem processChild_disabled (env : Env) (gc : Nat) (st : LoopState) (c : ChildNode)
    (ha : c.available = false) : processChild env gc st c = .ok st := by
  simp [processChild, ha]

theorem processChild_noName (env : Env) (gc : Nat) (st : LoopState) (c : ChildNode)
    (hi : st.i < gc) (ha : c.available = true) (hn : c.name = none) :
    processChild env gc st c = .ok st := by
  simp [processChild, ha, hn, Nat.not_le.mpr hi]

theorem processChild_noDir (env : Env) (gc : Nat) (st : LoopState) (c : ChildNode)
    (hi : st.i < gc) (ha : c.available = true) (nm : String) (hn : c.name = some nm)
    (hd : c.direction = none) :
    processChild env gc st c = .ok st := by
  simp [processChild, ha, hn, hd, Nat.not_le.mpr hi]

theorem processChild_badDir (env : Env) (gc : Nat) (st : LoopState) (c : ChildNode)
    (hi : st.i < gc) (ha : c.available = true) (nm ds : String) (hn : c.name = some nm)
    (hd : c.direction = some ds) (hf : dirFlags ds = none) :
    processChild env gc st c = .ok st := by
  simp [processChild, ha, hn, hd, hf, Nat.not_le.mpr hi]

theorem processChild_deferred (env : Env) (gc : Nat) (st : LoopState) (c : ChildNode)
    (hi : st.i < gc) (ha : c.available = true) (nm ds : String) (d : Dir)
    (hn : c.name = some nm) (hd : c.direction = some ds) (hf : dirFlags ds = some d)
    (hacq : env.acquire st.i d = .deferred) :
    processChild env gc st c = .error (st.trace ++ [.acquire st.i d], .deferred) := by
  simp [processChild, ha, hn, hd, hf, hacq, Nat.not_le.mpr hi]

theorem processChild_acqFailed (env : Env) (gc : Nat) (st : LoopState) (c : ChildNode)
    (hi : st.i < gc) (ha : c.available = true) (nm ds : String) (d : Dir)
    (hn : c.name = some nm) (hd : c.direction = some ds) (hf : dirFlags ds = some d)
    (hacq : env.acquire st.i d = .failed) :
    processChild env gc st c = .ok { st with trace := st.trace ++ [.acquire st.i d] } := by
  simp [processChild, ha, hn, hd, hf, hacq, Nat.not_le.mpr hi]

theorem processChild_exportFailed (env : Env) (gc : Nat) (st : LoopState) (c : ChildNode)
    (hi : st.i < gc) (ha : c.available = true) (nm ds : String) (d : Dir)
    (hn : c.name = some nm) (hd : c.direction = some ds) (hf : dirFlags ds = some d)
    (hacq : env.acquire st.i d = .ok) (hexp : env.exportOk st.i c.dmc = false) :
    processChild env gc st c =
      .ok { st with trace := st.trace ++ [.acquire st.i d, .exportGpio st.i c.dmc] } := by
  simp [processChild, ha, hn, hd, hf, hacq, hexp, Nat.not_le.mpr hi]

theorem processChild_linkFailed (env : Env) (gc : Nat) (st : LoopState) (c : ChildNode)
    (hi : st.i < gc) (ha : c.available = true) (nm ds : String) (d : Dir)
    (hn : c.name = some nm) (hd : c.direction = some ds) (hf : dirFlags ds = some d)
    (hacq : env.acquire st.i d = .ok) (hexp : env.exportOk st.i c.dmc = true)
    (hlnk : env.linkOk nm st.i = false) :
    processChild env gc st c =
      .ok { st with trace := st.trace ++
        [.acquire st.i d, .exportGpio st.i c.dmc, .exportLink nm st.i, .unexport st.i] } := by
  simp [processChild, ha, hn, hd, hf, hacq, hexp, hlnk, Nat.not_le.mpr hi]

theorem processChild_success (env : Env) (gc : Nat) (st : LoopState) (c : ChildNode)
    (hi : st.i < gc) (ha : c.available = true) (nm ds : String) (d : Dir)
    (hn : c.name = some nm) (hd : c.direction = some ds) (hf : dirFlags ds = some d)
    (hacq : env.acquire st.i d = .ok) (hexp : env.exportOk st.i c.dmc = true)
    (hlnk : env.linkOk nm st.i = true) :
    processChild env gc st c =
      .ok ⟨st.i + 1, st.slots ++ [(st.i, nm)],
        st.trace ++ [.acquire st.i d, .exportGpio st.i c.dmc, .exportLink nm st.i]⟩ := by
  simp [processChild, ha, hn, hd, hf, hacq, hexp, hlnk, Nat.not_le.mpr hi]

/-! ## Loop invariants -/

theorem countAvail_cons (c : ChildNode) (cs : List ChildNode) :
    countAvail (c :: cs) = (if c.available then 1 else 0) + countAvail cs := by
  cases h : c.available <;> simp [countAvail, List.filter, h, Nat.add_comm]

theorem runOutcomes_cons (env : Env) (i : Nat) (c : ChildNode) (cs : List ChildNode) :
    runOutcomes env i (c :: cs) =
      entryOutcome env i c ::
        runOutcomes env (if entryOutcome env i c = .success then i + 1 else i) cs := by
  simp [runOutcomes]

theorem entryOutcome_disabled (env : Env) (i : Nat) (c : ChildNode)
    (ha : c.available = false) : entryOutcome env i c = .disabled := by
  simp [entryOutcome, ha]

/-- An available entry is classified `success` exactly when the name and
direction resolve, acquisition succeeds and both publication steps succeed. -/
theorem entryOutcome_success_iff (env : Env) (i : Nat) (c : ChildNode) (nm ds : String)
    (d : Dir) (ha : c.available = true) (hn : c.name = some nm)
    (hd : c.direction = some ds) (hf : dirFlags ds = some d) :
    (entryOutcome env i c = .success ↔
      env.acquire i d = .ok ∧ env.exportOk i c.dmc = true ∧ env.linkOk nm i = true) := by
  cases hacq : env.acquire i d <;>
    cases hexp : env.exportOk i c.dmc <;>
      cases hlnk : env.linkOk nm i <;>
        simp [entryOutcome, ha, hn, hd, hf, hacq, hexp, hlnk]

/-- A non-aborting iteration: the success counter and the slot count advance
by one exactly on a `success` outcome, and the old trace stays a prefix. -/
theorem processChild_outcome (env : Env) (gc : Nat) (st : LoopState) (c : ChildNode)
    (hi : st.i < gc) (hnd : entryOutcome env st.i c ≠ .deferredAbort) :
    ∃ st', processChild env gc st c = .ok st' ∧
      st'.i = st.i + (if entryOutcome env st.i c = .success then 1 else 0) ∧
      st'.slots.length = st.slots.length +
        (if entryOutcome env st.i c = .success then 1 else 0) := by
  rcases c with ⟨avail, onm, ods, dmc⟩
  cases avail with
  | false =>
    refine ⟨st, processChild_disabled env gc st _ rfl, ?_, ?_⟩ <;>
      simp [entryOutcome]
  | true =>
    cases onm with
    | none =>
      refine ⟨st, processChild_noName env gc st _ hi rfl rfl, ?_, ?_⟩ <;>
        simp [entryOutcome]
    | some nm =>
      cases ods with
      | none =>
        refine ⟨st, processChild_noDir env gc st _ hi rfl nm rfl rfl, ?_, ?_⟩ <;>
          simp [entryOutcome]
      | some ds =>
        cases hf : dirFlags ds with
        | none =>
          refine ⟨st, processChild_badDir env gc st _ hi rfl nm ds rfl rfl hf, ?_, ?_⟩ <;>
            simp [entryOutcome, hf]
        | some d =>
          cases hacq : env.acquire st.i d with
          | deferred =>
            exact absurd (by simp [entryOutcome, hf, hacq]) hnd
          | failed =>
            refine ⟨_, processChild_acqFailed env gc st _ hi rfl nm ds d rfl rfl hf hacq,
              ?_, ?_⟩ <;> simp [entryOutcome, hf, hacq]
          | ok =>
            cases hexp : env.exportOk st.i dmc with
            | false =>
              refine ⟨_, processChild_exportFailed env gc st _ hi rfl nm ds d rfl rfl hf
                hacq hexp, ?_, ?_⟩ <;> simp [entryOutcome, hf, hacq, hexp]
            | true =>
              cases hlnk : env.linkOk nm st.i with
              | false =>
                refine ⟨_, processChild_linkFailed env gc st _ hi rfl nm ds d rfl rfl hf
                  hacq hexp hlnk, ?_, ?_⟩ <;> simp [entryOutcome, hf, hacq, hexp, hlnk]
              | true =>
                refine ⟨_, processChild_success env gc st _ hi rfl nm ds d rfl rfl hf
                  hacq hexp hlnk, ?_, ?_⟩ <;> simp [entryOutcome, hf, hacq, hexp, hlnk]

/-- An aborting iteration with the counter in bounds is a deferred
acquisition, and the acquisition call is the last event of its trace. -/
theorem processChild_error (env : Env) (gc : Nat) (st : LoopState) (c : ChildNode)
    (tr : List Event) (e : ProbeErr) (hi : c.available = true → st.i < gc)
    (h : processChild env gc st c = .error (tr, e)) :
    e = .deferred ∧ entryOutcome env st.i c = .deferredAbort ∧
      isAcquire tr.getLast? = true := by
  rcases c with ⟨avail, onm, ods, dmc⟩
  cases avail with
  | false => rw [processChild_disabled env gc st _ rfl] at h; exact absurd h (by simp)
  | true =>
    have hlt := hi rfl
    cases onm with
    | none => rw [processChild_noName env gc st _ hlt rfl rfl] at h; exact absurd h (by simp)
    | some nm =>
      cases ods with
      | none =>
        rw [processChild_noDir env gc st _ hlt rfl nm rfl rfl] at h
        exact absurd h (by simp)
      | some ds =>
        cases hf : dirFlags ds with
        | none =>
          rw [processChild_badDir env gc st _ hlt rfl nm ds rfl rfl hf] at h
          exact absurd h (by simp)
        | some d =>
          cases hacq : env.acquire st.i d with
          | deferred =>
            rw [processChild_deferred env gc st _ hlt rfl nm ds d rfl rfl hf hacq] at h
            obtain ⟨h1, h2⟩ := by exact Prod.mk.injEq .. ▸ (Except.error.injEq .. ▸ h)
            refine ⟨h2.symm ▸ rfl, by simp [entryOutcome, hf, hacq], ?_⟩
            rw [← h1, List.getLast?_concat]
            rfl
          | failed =>
            rw [processChild_acqFailed env gc st _ hlt rfl nm ds d rfl rfl hf hacq] at h
            exact absurd h (by simp)
          | ok =>
            cases hexp : env.exportOk st.i dmc with
            | false =>
              rw [processChild_exportFailed env gc st _ hlt rfl nm ds d rfl rfl hf
                hacq hexp] at h
              exact absurd h (by simp)
            | true =>
              cases hlnk : env.linkOk nm st.i with
              | false =>
                rw [processChild_linkFailed env gc st _ hlt rfl nm ds d rfl rfl hf
                  hacq hexp hlnk] at h
                exact absurd h (by simp)
              | true =>
                rw [processChild_success env gc st _ hlt rfl nm ds d rfl rfl hf
                  hacq hexp hlnk] at h
                exact absurd h (by simp)

/-- A non-aborting iteration, read off from its result: the outcome was not
a deferred abort, and the counter and slot count advanced by one exactly on
a `success` outcome. -/
theorem processChild_ok_char (env : Env) (gc : Nat) (st : LoopState) (c : ChildNode)
    (st' : LoopState) (hi : c.available = true → st.i < gc)
    (h : processChild env gc st c = .ok st') :
    entryOutcome env st.i c ≠ .deferredAbort ∧
    st'.i = st.i + (if entryOutcome env st.i c = .success then 1 else 0) ∧
    st'.slots.length = st.slots.length +
      (if entryOutcome env st.i c = .success then 1 else 0) := by
  rcases c with ⟨avail, onm, ods, dmc⟩
  cases avail with
  | false =>
    rw [processChild_disabled env gc st _ rfl] at h
    simp only [Except.ok.injEq] at h
    subst h
    simp [entryOutcome]
  | true =>
    have hlt := hi rfl
    cases onm with
    | none =>
      rw [processChild_noName env gc st _ hlt rfl rfl] at h
      simp only [Except.ok.injEq] at h
      subst h
      simp [entryOutcome]
    | some nm =>
      cases ods with
      | none =>
        rw [processChild_noDir env gc st _ hlt rfl nm rfl rfl] at h
        simp only [Except.ok.injEq] at h
        subst h
        simp [entryOutcome]
      | some ds =>
        cases hf : dirFlags ds with
        | none =>
          rw [processChild_badDir env gc st _ hlt rfl nm ds rfl rfl hf] at h
          simp only [Except.ok.injEq] at h
          subst h
          simp [entryOutcome, hf]
        | some d =>
          cases hacq : env.acquire st.i d with
          | deferred =>
            rw [processChild_deferred env gc st _ hlt rfl nm ds d rfl rfl hf hacq] at h
            exact absurd h (by simp)
          | failed =>
            rw [processChild_acqFailed env gc st _ hlt rfl nm ds d rfl rfl hf hacq] at h
            simp only [Except.ok.injEq] at h
            subst h
            simp [entryOutcome, hf, hacq]
          | ok =>
            cases hexp : env.exportOk st.i dmc with
            | false =>
              rw [processChild_exportFailed env gc st _ hlt rfl nm ds d rfl rfl hf
                hacq hexp] at h
              simp only [Except.ok.injEq] at h
              subst h
              simp [entryOutcome, hf, hacq, hexp]
            | true =>
              cases hlnk : env.linkOk nm st.i with
              | false =>
                rw [processChild_linkFailed env gc st _ hlt rfl nm ds d rfl rfl hf
                  hacq hexp hlnk] at h
                simp only [Except.ok.injEq] at h
                subst h
                simp [entryOutcome, hf, hacq, hexp, hlnk]
              | true =>
                rw [processChild_success env gc st _ hlt rfl nm ds d rfl rfl hf
                  hacq hexp hlnk] at h
                simp only [Except.ok.injEq] at h
                subst h
                simp [entryOutcome, hf, hacq, hexp, hlnk]

/-- Restatement of `processChild_outcome` with the in-bounds hypothesis
conditional on availability (a disabled node needs no bound). -/
theorem processChild_outcome' (env : Env) (gc : Nat) (st : LoopState) (c : ChildNode)
    (hi : c.available = true → st.i < gc) (hnd : entryOutcome env st.i c ≠ .deferredAbort) :
    ∃ st', processChild env gc st c = .ok st' ∧
      st'.i = st.i + (if entryOutcome env st.i c = .success then 1 else 0) ∧
      st'.slots.length = st.slots.length +
        (if entryOutcome env st.i c = .success then 1 else 0) := by
  cases ha : c.available with
  | false =>
    refine ⟨st, processChild_disabled env gc st c ha, ?_, ?_⟩ <;>
      simp [entryOutcome_disabled env st.i c ha]
  | true => exact processChild_outcome env gc st c (hi ha) hnd

/-- The per-child loop, run over children none of which defers, with the
success counter within the pre-counted bound: it completes, and the counter
and slot count grow by exactly the number of `success` outcomes. -/
theorem processChildren_run : ∀ (cs : List ChildNode) (env : Env) (gc : Nat) (st : LoopState),
    st.i + countAvail cs ≤ gc →
    EntryOutcome.deferredAbort ∉ runOutcomes env st.i cs →
    ∃ st', processChildren env gc st cs = .ok st' ∧
      st'.i = st.i + countSuccesses (runOutcomes env st.i cs) ∧
      st'.slots.length = st.slots.length + countSuccesses (runOutcomes env st.i cs) := by
  intro cs
  induction cs with
  | nil =>
    intro env gc st _ _
    exact ⟨st, rfl, by simp [runOutcomes, countSuccesses], by simp [runOutcomes, countSuccesses]⟩
  | cons c cs ih =>
    intro env gc st hb hnd
    have hav : c.available = true → st.i < gc := by
      intro ha
      rw [countAvail_cons, ha, if_pos rfl] at hb
      omega
    rw [runOutcomes_cons] at hnd
    simp only [List.mem_cons, not_or] at hnd
    obtain ⟨hnd0, hndrest⟩ := hnd
    obtain ⟨st', hstep, hi', hslots'⟩ :=
      processChild_outcome' env gc st c hav (fun h => hnd0 h.symm)
    have hb' : st'.i + countAvail cs ≤ gc := by
      cases ha : c.available with
      | false =>
        rw [entryOutcome_disabled env st.i c ha] at hi'
        rw [countAvail_cons, ha] at hb
        simp at hi' hb
        omega
      | true =>
        rw [countAvail_cons, ha, if_pos rfl] at hb
        by_cases hs : entryOutcome env st.i c = .success <;> simp [hs] at hi' <;> omega
    have hieq : st'.i = if entryOutcome env st.i c = .success then st.i + 1 else st.i := by
      by_cases hs : entryOutcome env st.i c = .success <;> simp [hs] at hi' ⊢ <;> omega
    rw [← hieq] at hndrest
    obtain ⟨st'', hrest, hi'', hslots''⟩ := ih env gc st' hb' hndrest
    refine ⟨st'', ?_, ?_, ?_⟩
    · simp only [processChildren, hstep]
      exact hrest
    · rw [runOutcomes_cons]
      simp only [countSuccesses]
      rw [← hieq]
      omega
    · rw [runOutcomes_cons]
      simp only [countSuccesses]
      rw [← hieq]
      omega

/-- An abort of the per-child loop, with the counter within the pre-counted
bound, is a deferred acquisition: the error is `.deferred` and the last
event of the abort trace is the deferred acquisition call. -/
theorem processChildren_abort : ∀ (cs : List ChildNode) (env : Env) (gc : Nat)
    (st : LoopState) (tr : List Event) (e : ProbeErr),
    st.i + countAvail cs ≤ gc →
    processChildren env gc st cs = .error (tr, e) →
    e = .deferred ∧ isAcquire tr.getLast? = true := by
  intro cs
  induction cs with
  | nil =>
    intro env gc st tr e _ h
    exact absurd h (by simp [processChildren])
  | cons c cs ih =>
    intro env gc st tr e hb h
    have hav : c.available = true → st.i < gc := by
      intro ha
      rw [countAvail_cons, ha, if_pos rfl] at hb
      omega
    cases hc : processChild env gc st c with
    | error p =>
      obtain ⟨tr0, e0⟩ := p
      simp only [processChildren, hc] at h
      simp only [Except.error.injEq, Prod.mk.injEq] at h
      obtain ⟨htr, he⟩ := h
      obtain ⟨he', _, hacq⟩ := processChild_error env gc st c tr0 e0 hav hc
      subst htr he
      exact ⟨he', hacq⟩
    | ok st' =>
      simp only [processChildren, hc] at h
      obtain ⟨_, hi', _⟩ := processChild_ok_char env gc st c st' hav hc
      have hb' : st'.i + countAvail cs ≤ gc := by
        cases ha : c.available with
        | false =>
          rw [entryOutcome_disabled env st.i c ha] at hi'
          rw [countAvail_cons, ha] at hb
          simp at hi' hb
          omega
        | true =>
          rw [countAvail_cons, ha, if_pos rfl] at hb
          by_cases hs : entryOutcome env st.i c = .success <;> simp [hs] at hi' <;> omega
      exact ih env gc st' tr e hb' h

theorem xbrother_probe_loop_error (env : Env) (np : GroupNode) (tr : List Event)
    (e : ProbeErr) (hc : env.classOk = true) (hd : env.deviceOk = true)
    (hl : env.rootLinkOk = true) (h0 : countAvail np.children ≠ 0)
    (hrun : processChildren env (countAvail np.children) ⟨0, [], initTrace np⟩ np.children
      = .error (tr, e)) :
    xbrother_probe env np = .error (tr ++ cleanupEvents np, e) := by
  simp only [xbrother_probe, initTrace] at hrun ⊢
  simp [h0, hc, hd, hl, hrun, cleanupEvents]

theorem xbrother_probe_loop_zero (env : Env) (np : GroupNode) (st : LoopState)
    (hc : env.classOk = true) (hd : env.deviceOk = true)
    (hl : env.rootLinkOk = true) (h0 : countAvail np.children ≠ 0)
    (hrun : processChildren env (countAvail np.children) ⟨0, [], initTrace np⟩ np.children
      = .ok st) (hz : st.i = 0) :
    xbrother_probe env np = .error (st.trace ++ cleanupEvents np, .noneExported) := by
  simp only [xbrother_probe, initTrace] at hrun ⊢
  simp [h0, hc, hd, hl, hrun, hz, cleanupEvents]

theorem xbrother_probe_loop_ok (env : Env) (np : GroupNode) (st : LoopState)
    (hc : env.classOk = true) (hd : env.deviceOk = true)
    (hl : env.rootLinkOk = true) (h0 : countAvail np.children ≠ 0)
    (hrun : processChildren env (countAvail np.children) ⟨0, [], initTrace np⟩ np.children
      = .ok st) (hz : st.i ≠ 0) :
    xbrother_probe env np = .ok (⟨st.slots, st.i⟩, st.trace) := by
  simp only [xbrother_probe, initTrace] at hrun ⊢
  simp [h0, hc, hd, hl, hrun, hz]

/-- A child list with no available node yields only `disabled` outcomes. -/
theorem runOutcomes_all_disabled : ∀ (cs : List ChildNode) (env : Env) (i : Nat),
    countAvail cs = 0 → ∀ o ∈ runOutcomes env i cs, o = EntryOutcome.disabled := by
  intro cs
  induction cs with
  | nil => intro env i _ o ho; simp [runOutcomes] at ho
  | cons c cs ih =>
    intro env i h0 o ho
    rw [countAvail_cons] at h0
    have ha : c.available = false := by
      cases ha : c.available with
      | false => rfl
      | true => rw [ha] at h0; simp at h0
    rw [runOutcomes_cons, entryOutcome_disabled env i c ha] at ho
    simp only [List.mem_cons] at ho
    cases ho with
    | inl h => exact h
    | inr h =>
      refine ih env _ ?_ o h
      rw [ha] at h0
      simpa using h0

/-! ## C10 -/

/-- C10: the defensive `Unexpected child node count` branch (lines 124-128)
is unreachable: for every environment and every device-tree node, the probe
never returns that error, so every write to `priv->gpios[i]` stays within
the pre-counted `gpio_count` slots. -/
theorem claim_C10 (env : Env) (np : GroupNode) :
    hitUnexpected (xbrother_probe env np) = false := by
  by_cases h0 : countAvail np.children = 0
  · simp [xbrother_probe, h0, hitUnexpected]
  · cases hc : env.classOk with
    | false => simp [xbrother_probe, h0, hc, hitUnexpected]
    | true =>
      cases hd : env.deviceOk with
      | false => simp [xbrother_probe, h0, hc, hd, hitUnexpected]
      | true =>
        cases hl : env.rootLinkOk with
        | false => simp [xbrother_probe, h0, hc, hd, hl, hitUnexpected]
        | true =>
          cases hrun : processChildren env (countAvail np.children)
              ⟨0, [], initTrace np⟩ np.children with
          | error p =>
            obtain ⟨tr, e⟩ := p
            obtain ⟨he, -⟩ := processChildren_abort np.children env _ _ tr e (by simp) hrun
            rw [xbrother_probe_loop_error env np tr e hc hd hl h0 hrun]
            subst he
            simp [hitUnexpected]
          | ok st =>
            by_cases hz : st.i = 0
            · rw [xbrother_probe_loop_zero env np st hc hd hl h0 hrun hz]
              simp [hitUnexpected]
            · rw [xbrother_probe_loop_ok env np st hc hd hl h0 hrun hz]
              simp [hitUnexpected]

/-! ## C9 -/

/-- C9: the direction property accepts exactly the four tokens: "input"
acquires as input, "high" as output-high, "low" and "output" as output-low;
any other token makes the entry invalid and it is soft-skipped without any
acquisition attempt (the iteration returns with state and trace unchanged);
with a valid token, the first collaborator call of the entry is the
acquisition with exactly that flag. -/
theorem claim_C9 :
    dirFlags "input" = some Dir.input ∧
    dirFlags "output" = some Dir.outLow ∧
    dirFlags "low" = some Dir.outLow ∧
    dirFlags "high" = some Dir.outHigh ∧
    (∀ s : String, s ≠ "input" → s ≠ "output" → s ≠ "low" → s ≠ "high" →
      dirFlags s = none) ∧
    (∀ (env : Env) (gc : Nat) (st : LoopState) (c : ChildNode) (ds : String),
      st.i < gc → c.available = true → c.direction = some ds → dirFlags ds = none →
      processChild env gc st c = .ok st) ∧
    (∀ (env : Env) (gc : Nat) (st : LoopState) (c : ChildNode) (nm ds : String) (d : Dir),
      st.i < gc → c.available = true → c.name = some nm → c.direction = some ds →
      dirFlags ds = some d →
      (stepTrace (processChild env gc st c)).take (st.trace.length + 1) =
        st.trace ++ [Event.acquire st.i d]) := by
  refine ⟨rfl, rfl, rfl, rfl, ?_, ?_, ?_⟩
  · intro s h1 h2 h3 h4
    simp [dirFlags, h1, h2, h3, h4]
  · intro env gc st c ds hi ha hd hf
    cases hn : c.name with
    | none => exact processChild_noName env gc st c hi ha hn
    | some nm => exact processChild_badDir env gc st c hi ha nm ds hn hd hf
  · intro env gc st c nm ds d hi ha hn hd hf
    cases hacq : env.acquire st.i d with
    | deferred =>
      rw [processChild_deferred env gc st c hi ha nm ds d hn hd hf hacq]
      exact take_append_cons st.trace [] (Event.acquire st.i d)
    | failed =>
      rw [processChild_acqFailed env gc st c hi ha nm ds d hn hd hf hacq]
      exact take_append_cons st.trace [] (Event.acquire st.i d)
    | ok =>
      cases hexp : env.exportOk st.i c.dmc with
      | false =>
        rw [processChild_exportFailed env gc st c hi ha nm ds d hn hd hf hacq hexp]
        exact take_append_cons st.trace [Event.exportGpio st.i c.dmc] (Event.acquire st.i d)
      | true =>
        cases hlnk : env.linkOk nm st.i with
        | false =>
          rw [processChild_linkFailed env gc st c hi ha nm ds d hn hd hf hacq hexp hlnk]
          exact take_append_cons st.trace
            [Event.exportGpio st.i c.dmc, Event.exportLink nm st.i, Event.unexport st.i]
            (Event.acquire st.i d)
        | true =>
          rw [processChild_success env gc st c hi ha nm ds d hn hd hf hacq hexp hlnk]
          exact take_append_cons st.trace
            [Event.exportGpio st.i c.dmc, Event.exportLink nm st.i] (Event.acquire st.i d)

/-! ## C5, C6, C7 -/

theorem countSuccesses_pos : ∀ (l : List EntryOutcome), EntryOutcome.success ∈ l →
    0 < countSuccesses l := by
  intro l
  induction l with
  | nil => simp
  | cons o rest ih =>
    intro h
    simp only [List.mem_cons] at h
    by_cases ho : o = EntryOutcome.success
    · simp [countSuccesses, ho]
    · cases h with
      | inl h => exact absurd h.symm ho
      | inr h => have := ih h; simp [countSuccesses, ho]; omega

/-- C5: a deferred acquisition is not soft-skipped.  (1) When the acquisition of an entry returns `-EPROBE_DEFER`, the loop aborts at once: its error
trace ends at that acquisition call, so no remaining entry is processed.
(2) A deferred acquisition is the only per-entry failure that aborts the
loop: any abort (with the counter within the pre-counted bound, as the
probe always starts it) carries the `.deferred` error.  (3) The probe then
surfaces exactly that retryable error, after the root cleanup calls. -/
theorem claim_C5 :
    (∀ (env : Env) (gc : Nat) (st : LoopState) (c : ChildNode) (cs : List ChildNode)
       (nm ds : String) (d : Dir),
      st.i < gc → c.available = true → c.name = some nm → c.direction = some ds →
      dirFlags ds = some d → env.acquire st.i d = .deferred →
      processChildren env gc st (c :: cs) =
        .error (st.trace ++ [Event.acquire st.i d], .deferred)) ∧
    (∀ (cs : List ChildNode) (env : Env) (gc : Nat) (st : LoopState) (tr : List Event)
       (e : ProbeErr),
      st.i + countAvail cs ≤ gc →
      processChildren env gc st cs = .error (tr, e) → e = .deferred) ∧
    (∀ (env : Env) (np : GroupNode) (tr : List Event),
      env.classOk = true → env.deviceOk = true → env.rootLinkOk = true →
      countAvail np.children ≠ 0 →
      processChildren env (countAvail np.children) ⟨0, [], initTrace np⟩ np.children =
        .error (tr, .deferred) →
      xbrother_probe env np = .error (tr ++ cleanupEvents np, .deferred) ∧
        retryable .deferred = true) := by
  refine ⟨?_, ?_, ?_⟩
  · intro env gc st c cs nm ds d hi ha hn hd hf hacq
    simp only [processChildren, processChild_deferred env gc st c hi ha nm ds d hn hd hf hacq]
  · intro cs env gc st tr e hb h
    exact (processChildren_abort cs env gc st tr e hb h).1
  · intro env np tr hc hd hl h0 hrun
    exact ⟨xbrother_probe_loop_error env np tr .deferred hc hd hl h0 hrun, rfl⟩

/-- C6: when the per-entry loop completes with zero lines exported, the
probe fails with the non-retryable `-EINVAL` ("No valid GPIOs exported")
and, before returning, removes the sysfs alias link, destroys the device
node and destroys the class, in that order. -/
theorem claim_C6 (env : Env) (np : GroupNode) (st : LoopState)
    (hc : env.classOk = true) (hd : env.deviceOk = true) (hl : env.rootLinkOk = true)
    (h0 : countAvail np.children ≠ 0)
    (hrun : processChildren env (countAvail np.children) ⟨0, [], initTrace np⟩ np.children
      = .ok st)
    (hz : st.i = 0) :
    xbrother_probe env np = .error (st.trace ++ cleanupEvents np, .noneExported) ∧
    retryable .noneExported = false :=
  ⟨xbrother_probe_loop_zero env np st hc hd hl h0 hrun hz, rfl⟩

/-- Witness for C6 at a concrete input: a single available child with no
"name" property is soft-skipped, the loop ends with zero exports, and the
probe fails with `.noneExported` after removing link, device and class. -/
theorem claim_C6_witness :
    xbrother_probe envAllOk npNoName =
      .error ([Event.classCreate, Event.deviceCreate, Event.linkCreate "xbrother",
        Event.linkRemove "xbrother", Event.deviceDestroy, Event.classDestroy],
        .noneExported) ∧
    retryable .noneExported = false :=
  claim_C6 envAllOk npNoName ⟨0, [], initTrace npNoName⟩ rfl rfl rfl (by decide) rfl rfl

/-- C7: when no entry defers and at least one entry fully succeeds (and the
root class/device/link creation succeeds), the probe succeeds, every
soft-skipped entry notwithstanding, and the recorded `gpio_count` equals
the number of entries whose outcome was `success`, i.e. the number of
available entries that hit no soft-skip condition. -/
theorem claim_C7 (env : Env) (np : GroupNode)
    (hc : env.classOk = true) (hd : env.deviceOk = true) (hl : env.rootLinkOk = true)
    (hnd : EntryOutcome.deferredAbort ∉ runOutcomes env 0 np.children)
    (hs : EntryOutcome.success ∈ runOutcomes env 0 np.children) :
    probeOk (xbrother_probe env np) = true ∧
    probeCount (xbrother_probe env np) = countSuccesses (runOutcomes env 0 np.children) := by
  have h0 : countAvail np.children ≠ 0 := by
    intro h
    have := runOutcomes_all_disabled np.children env 0 h _ hs
    simp at this
  obtain ⟨st, hrun, hi, -⟩ := processChildren_run np.children env (countAvail np.children)
    ⟨0, [], initTrace np⟩ (by simp) hnd
  have hpos : 0 < countSuccesses (runOutcomes env 0 np.children) := countSuccesses_pos _ hs
  simp only at hi
  have hz : st.i ≠ 0 := by omega
  rw [xbrother_probe_loop_ok env np st hc hd hl h0 hrun hz]
  exact ⟨rfl, by simp [probeCount]; omega⟩

/-- Witness for C7 at a concrete input: two available children, the first
skipped (no "name"), the second fully successful; the probe succeeds with
`gpio_count = 1`, the number of non-skipped entries. -/
theorem claim_C7_witness :
    probeOk (xbrother_probe envAllOk ⟨fun _ => none,
      [⟨true, none, none, false⟩, ⟨true, some "b", some "input", false⟩]⟩) = true ∧
    probeCount (xbrother_probe envAllOk ⟨fun _ => none,
      [⟨true, none, none, false⟩, ⟨true, some "b", some "input", false⟩]⟩) =
      countSuccesses (runOutcomes envAllOk 0
        [⟨true, none, none, false⟩, ⟨true, some "b", some "input", false⟩]) :=
  claim_C7 envAllOk _ rfl rfl rfl (by decide) (by decide)

/-! ## C1 -/

/-- Counterexample to C1 as stated: entry 1 defers after entry 0 was
acquired and published (its successful `gpiod_export_link` call is in the
trace), yet the returned error trace contains no `gpiod_unexport` call at
all — the already-published entry 0 is not released before the probe
returns its error. -/
theorem claim_C1_counterexample :
    xbrother_probe envC1 npC1 = .error (c1trace, .deferred) ∧
    Event.exportLink "a" 0 ∈ c1trace ∧
    envC1.linkOk "a" 0 = true ∧
    Event.unexport 0 ∉ c1trace :=
  ⟨rfl, by decide, rfl, by decide⟩

/-- C1 as amended: when the probe returns the deferred error, its trace
ends with exactly the three root cleanup calls (remove sysfs link, destroy
device, destroy class, in that order), and the event just before them is
the deferred acquisition call itself — so no per-line unexport happens
between the deferred acquisition and the error return. -/
theorem claim_C1 (env : Env) (np : GroupNode) (tr : List Event)
    (h : xbrother_probe env np = .error (tr, .deferred)) :
    3 < tr.length ∧
    tr.drop (tr.length - 3) = cleanupEvents np ∧
    isAcquire tr[tr.length - 4]? = true := by
  by_cases h0 : countAvail np.children = 0
  · simp [xbrother_probe, h0] at h
  · cases hc : env.classOk with
    | false => simp [xbrother_probe, h0, hc] at h
    | true =>
      cases hd : env.deviceOk with
      | false => simp [xbrother_probe, h0, hc, hd] at h
      | true =>
        cases hl : env.rootLinkOk with
        | false => simp [xbrother_probe, h0, hc, hd, hl] at h
        | true =>
          cases hrun : processChildren env (countAvail np.children)
              ⟨0, [], initTrace np⟩ np.children with
          | error p =>
            obtain ⟨tr0, e⟩ := p
            obtain ⟨he, hacq⟩ :=
              processChildren_abort np.children env _ _ tr0 e (by simp) hrun
            rw [xbrother_probe_loop_error env np tr0 e hc hd hl h0 hrun] at h
            simp only [Except.error.injEq, Prod.mk.injEq] at h
            obtain ⟨htr, -⟩ := h
            subst htr
            have hne : tr0 ≠ [] := by
              intro hnil
              rw [hnil] at hacq
              simp [isAcquire] at hacq
            have hlen : 0 < tr0.length := List.length_pos.mpr hne
            have hlen3 : (tr0 ++ cleanupEvents np).length = tr0.length + 3 := by
              simp [cleanupEvents]
            refine ⟨by omega, ?_, ?_⟩
            · rw [hlen3]
              have h33 : tr0.length + 3 - 3 = tr0.length := by omega
              rw [h33, List.drop_left' rfl]
            · rw [hlen3]
              have h34 : tr0.length + 3 - 4 = tr0.length - 1 := by omega
              rw [h34, List.getElem?_append_left (by omega), ← List.getLast?_eq_getElem?]
              exact hacq
          | ok st =>
            by_cases hz : st.i = 0
            · rw [xbrother_probe_loop_zero env np st hc hd hl h0 hrun hz] at h
              simp at h
            · rw [xbrother_probe_loop_ok env np st hc hd hl h0 hrun hz] at h
              simp at h

/-- Witness for the amended C1 at the concrete deferred run. -/
theorem claim_C1_witness :
    3 < c1trace.length ∧
    c1trace.drop (c1trace.length - 3) = cleanupEvents npC1 ∧
    isAcquire c1trace[c1trace.length - 4]? = true :=
  claim_C1 envC1 npC1 c1trace rfl

theorem filterMap_range_getElem {α β : Type _} (l : List α) (f : α → β) :
    (List.range l.length).filterMap (fun j => (l[j]?).map f) = l.map f := by
  induction l with
  | nil => simp
  | cons a l ih =>
    simp [List.range_succ_eq_map, List.filterMap_cons, List.filterMap_map,
      Function.comp_def, List.getElem?_cons_succ, ih]

/-! ## C4 -/

/-- Counterexample to C4 as stated: after a successful probe of two lines
("a" acquired first at index 0, "b" second at index 1, as the probe trace
shows), the remove path unexports index 0 *before* index 1 — forward
acquisition order, not the claimed reverse order. -/
theorem claim_C4_counterexample :
    xbrother_probe envAllOk npTwo =
      .ok (⟨[(0, "a"), (1, "b")], 2⟩,
        [Event.classCreate, Event.deviceCreate, Event.linkCreate "xbrother",
         Event.acquire 0 Dir.input, Event.exportGpio 0 false, Event.exportLink "a" 0,
         Event.acquire 1 Dir.outLow, Event.exportGpio 1 false, Event.exportLink "b" 1]) ∧
    xbrother_remove npTwo ⟨[(0, "a"), (1, "b")], 2⟩ =
      [Event.unexport 0, Event.unexport 1, Event.linkRemove "xbrother",
       Event.deviceDestroy, Event.classDestroy] :=
  ⟨rfl, rfl⟩

/-- C4 as amended: explicit teardown unexports the recorded lines in
*forward* acquisition order (first acquired, first released), and only
then removes the sysfs link, destroys the device and destroys the class. -/
theorem claim_C4 (np : GroupNode) (priv : Priv) (h : priv.gpio_count = priv.gpios.length) :
    xbrother_remove np priv =
      priv.gpios.map (fun g => Event.unexport g.1) ++
        [Event.linkRemove (xbrother_remove_link np), Event.deviceDestroy,
         Event.classDestroy] := by
  unfold xbrother_remove
  rw [h, filterMap_range_getElem]

/-- Witness for the amended C4 at the two-line group. -/
theorem claim_C4_witness :
    xbrother_remove npTwo ⟨[(0, "a"), (1, "b")], 2⟩ =
      [(0, "a"), (1, "b")].map (fun g => Event.unexport g.1) ++
        [Event.linkRemove (xbrother_remove_link npTwo), Event.deviceDestroy,
         Event.classDestroy] :=
  claim_C4 npTwo ⟨[(0, "a"), (1, "b")], 2⟩ rfl

/-! ## C3 -/

/-- Counterexample to C3 as stated: the handle of entry "a" is acquired
(`envC3.acquire 0 outHigh = ok`, the call is in the trace) and its
publication fails at the export step, yet the trace contains no release
call whatsoever (no unexport; the descriptor stays device-managed), while
no `AcquiredLine` is recorded for it (only "b" is in the slots). -/
theorem claim_C3_counterexample :
    xbrother_probe envC3 npC3 = .ok (⟨[(0, "b")], 1⟩, c3trace) ∧
    envC3.acquire 0 Dir.outHigh = .ok ∧
    envC3.exportOk 0 true = false ∧
    Event.acquire 0 Dir.outHigh ∈ c3trace ∧
    Event.unexport 0 ∉ c3trace :=
  ⟨rfl, rfl, rfl, by decide, by decide⟩

/-- C3 as amended: (1) an entry is recorded as an `AcquiredLine` (slot
appended, counter incremented) iff its acquisition, its export and its
named link all succeeded; (2) when export succeeds but the link fails, the
just-made export is undone immediately (`gpiod_unexport` directly after
the failed link call) and nothing is recorded; (3) when the export itself
fails, nothing is recorded and no release call is made at that point (the
devm-managed handle is only released after detach). -/
theorem claim_C3 :
    (∀ (env : Env) (gc : Nat) (st st' : LoopState) (c : ChildNode) (nm ds : String) (d : Dir),
      st.i < gc → c.available = true → c.name = some nm → c.direction = some ds →
      dirFlags ds = some d → processChild env gc st c = .ok st' →
      ((st'.i = st.i + 1 ∧ st'.slots = st.slots ++ [(st.i, nm)]) ↔
        (env.acquire st.i d = .ok ∧ env.exportOk st.i c.dmc = true ∧
          env.linkOk nm st.i = true))) ∧
    (∀ (env : Env) (gc : Nat) (st : LoopState) (c : ChildNode) (nm ds : String) (d : Dir),
      st.i < gc → c.available = true → c.name = some nm → c.direction = some ds →
      dirFlags ds = some d → env.acquire st.i d = .ok → env.exportOk st.i c.dmc = true →
      env.linkOk nm st.i = false →
      processChild env gc st c = .ok { st with trace := st.trace ++
        [Event.acquire st.i d, Event.exportGpio st.i c.dmc, Event.exportLink nm st.i,
         Event.unexport st.i] }) ∧
    (∀ (env : Env) (gc : Nat) (st : LoopState) (c : ChildNode) (nm ds : String) (d : Dir),
      st.i < gc → c.available = true → c.name = some nm → c.direction = some ds →
      dirFlags ds = some d → env.acquire st.i d = .ok → env.exportOk st.i c.dmc = false →
      processChild env gc st c = .ok { st with trace := st.trace ++
        [Event.acquire st.i d, Event.exportGpio st.i c.dmc] }) := by
  refine ⟨?_, ?_, ?_⟩
  · intro env gc st st' c nm ds d hi ha hn hd hf h
    cases hacq : env.acquire st.i d with
    | deferred =>
      rw [processChild_deferred env gc st c hi ha nm ds d hn hd hf hacq] at h
      exact absurd h (by simp)
    | failed =>
      rw [processChild_acqFailed env gc st c hi ha nm ds d hn hd hf hacq] at h
      simp only [Except.ok.injEq] at h
      subst h
      refine iff_of_false ?_ (by simp)
      rintro ⟨h1, -⟩
      dsimp only at h1
      omega
    | ok =>
      cases hexp : env.exportOk st.i c.dmc with
      | false =>
        rw [processChild_exportFailed env gc st c hi ha nm ds d hn hd hf hacq hexp] at h
        simp only [Except.ok.injEq] at h
        subst h
        refine iff_of_false ?_ (by simp)
        rintro ⟨h1, -⟩
        dsimp only at h1
        omega
      | true =>
        cases hlnk : env.linkOk nm st.i with
        | false =>
          rw [processChild_linkFailed env gc st c hi ha nm ds d hn hd hf hacq hexp hlnk] at h
          simp only [Except.ok.injEq] at h
          subst h
          refine iff_of_false ?_ (by simp)
          rintro ⟨h1, -⟩
          dsimp only at h1
          omega
        | true =>
          rw [processChild_success env gc st c hi ha nm ds d hn hd hf hacq hexp hlnk] at h
          simp only [Except.ok.injEq] at h
          subst h
          exact iff_of_true ⟨rfl, rfl⟩ ⟨rfl, rfl, rfl⟩
  · intro env gc st c nm ds d hi ha hn hd hf hacq hexp hlnk
    exact processChild_linkFailed env gc st c hi ha nm ds d hn hd hf hacq hexp hlnk
  · intro env gc st c nm ds d hi ha hn hd hf hacq hexp
    exact processChild_exportFailed env gc st c hi ha nm ds d hn hd hf hacq hexp

/-! ## C2 -/

/-- C2 failing input, evaluated: with entry 0 soft-skipped, entry 1 (the
second child) is acquired with index 0 — the running success counter —
and no acquisition with index 1 (the own position of the entry in the parent
`gpios` list) ever happens. -/
theorem claim_C2_bug :
    xbrother_probe envAllOk npC2 = .ok (⟨[(0, "b")], 1⟩, c2trace) ∧
    Event.acquire 0 Dir.input ∈ c2trace ∧
    Event.acquire 1 Dir.input ∉ c2trace ∧
    Event.acquire 1 Dir.outLow ∉ c2trace ∧
    Event.acquire 1 Dir.outHigh ∉ c2trace :=
  ⟨rfl, by decide, by decide, by decide, by decide⟩

/-! ## C8 -/

/-- C8 failing input, evaluated: with `sysfs-link = "foo"`, the probe
creates the alias link "foo", but the remove path reads the differently
spelled property `"xbrother,sysfs-link"` (absent), falls back to
"xbrother", and removes that — the link "foo" the probe created is never
removed. -/
theorem claim_C8_bug :
    xbrother_probe_link npC8 = "foo" ∧
    xbrother_remove_link npC8 = "xbrother" ∧
    xbrother_probe envAllOk npC8 = .ok (⟨[(0, "a")], 1⟩,
      [Event.classCreate, Event.deviceCreate, Event.linkCreate "foo",
       Event.acquire 0 Dir.input, Event.exportGpio 0 false, Event.exportLink "a" 0]) ∧
    xbrother_remove npC8 ⟨[(0, "a")], 1⟩ =
      [Event.unexport 0, Event.linkRemove "xbrother", Event.deviceDestroy,
       Event.classDestroy] ∧
    Event.linkRemove "foo" ∉ xbrother_remove npC8 ⟨[(0, "a")], 1⟩ :=
  ⟨rfl, rfl, rfl, rfl, by decide⟩
